import Mathlib

/-!
Shallow embedding of `gmapswrapper.py` (class `GMapsWrapper`): the cache data
model (`_load_cache` / `_write_cache`), the batch geocoding loop `geocode`,
and the administrative operation `remove_item_from_cache`.

Modelling choices:
* A geocoding match record is opaque to the wrapper; we model it as `Nat`.
  A provider result is a list of match records (Python list).
* `datetime.now()` is modelled by a monotone clock counter threaded through
  the state; each outbound request attempt appends the current clock value to
  the request log and advances the clock.
* The external provider `self.gmaps.geocode` is an environment parameter
  `provider : Nat → String → ProviderOutcome`, indexed by the clock at call
  time (so distinct attempts may behave differently), returning either a list
  of matches or raising one of the exception kinds distinguished at lines
  84-91 of the source (HTTPError / TransportError / Timeout / anything else).
* The durable pickle file is `Option Cache` (present or absent); every
  `_write_cache` is recorded in a `writes` trace, and `_load_cache` calls are
  counted, so that claims about "no durable write" / "no cache load" are
  statable.
* Python dicts are association lists with unique keys; `alookup`, `ainsert`
  (assignment: replace-or-append) and `aerase` (`del`) model the operations
  used by the source.
-/

/-- A geocoding match record (its structure is never inspected by the wrapper). -/
abbrev GeocodeMatch := Nat

/-- A provider result: the list of match records returned by `gmaps.geocode`. -/
abbrev GRes := List GeocodeMatch

/-- Exception kinds distinguished (for logging only) at lines 84-91 of the source. -/
inductive ExcKind where
  | httpError
  | transportError
  | timeout
  | otherExc
  deriving DecidableEq, Repr

/-- Outcome of one call to the external provider `self.gmaps.geocode(addr)`. -/
inductive ProviderOutcome where
  | ok (results : GRes)
  | raises (k : ExcKind)
  deriving DecidableEq, Repr

/-- Dictionary lookup (`addr in d` / `d[addr]`) on an association list. -/
def alookup {α : Type} : List (String × α) → String → Option α
  | [], _ => none
  | (k, v) :: rest, key => if k = key then some v else alookup rest key

/-- Dictionary assignment `d[key] = v`: replace the entry if the key is
present, otherwise append it. -/
def ainsert {α : Type} : List (String × α) → String → α → List (String × α)
  | [], key, v => [(key, v)]
  | (k, w) :: rest, key, v =>
      if k = key then (k, v) :: rest else (k, w) :: ainsert rest key v

/-- Dictionary deletion `del d[key]`: drop the (unique) entry with that key. -/
def aerase {α : Type} : List (String × α) → String → List (String × α)
  | [], _ => []
  | (k, w) :: rest, key => if k = key then rest else (k, w) :: aerase rest key

/-- The cache object: `_version`, `_requests['geocoding']` (one timestamp per
outbound request attempt) and the `geocoding` results section. -/
structure Cache where
  version : Nat
  requests : List Nat
  geocoding : List (String × GRes)
  deriving DecidableEq, Repr

/-- The fresh cache object created by `_load_cache` when no file exists
(lines 120-126 of the source). -/
def freshCache : Cache :=
  { version := 1, requests := [], geocoding := [] }

/-- `_load_cache`: read the pickle file if present, else a fresh cache. -/
def load_cache (file : Option Cache) : Cache :=
  file.getD freshCache

/-- `AUTSAVE_CACHE_EVERY_NTH_REQUEST` (line 19 of the source). -/
def AUTSAVE_CACHE_EVERY_NTH_REQUEST : Nat := 10

/-- The mutable state of one `geocode` call: the in-memory cache, the output
dict `geocoded_addresses`, the `fetched_res_since_last_cachewrite` flag, the
durable file, and the instrumentation traces (durable writes performed,
clock, addresses for which the provider was invoked). -/
structure LoopState where
  cache : Cache
  out : List (String × Option GRes)
  dirty : Bool
  file : Option Cache
  writes : List Cache
  clock : Nat
  calls : List String
  deriving DecidableEq, Repr

/-- The body of the `for` loop before the checkpoint (lines 72-101): cache
hit uses the cached value; cache miss appends a request-log timestamp,
invokes the provider, caches a truthy (non-empty) result, and records the
(possibly `None`) result in the output dict. -/
def processAddr (provider : Nat → String → ProviderOutcome) (addr : String)
    (s : LoopState) : LoopState :=
  match alookup s.cache.geocoding addr with
  | some rs =>
      { s with out := ainsert s.out addr (some rs) }
  | none =>
      let s2 : LoopState :=
        { s with
          cache := { s.cache with requests := s.cache.requests ++ [s.clock] },
          clock := s.clock + 1,
          calls := s.calls ++ [addr],
          dirty := true }
      match provider s.clock addr with
      | ProviderOutcome.ok rs =>
          let s3 : LoopState :=
            if rs = [] then s2
            else { s2 with
                   cache := { s2.cache with
                              geocoding := ainsert s2.cache.geocoding addr rs } }
          { s3 with out := ainsert s3.out addr (some rs) }
      | ProviderOutcome.raises _ =>
          { s2 with out := ainsert s2.out addr none }

/-- The checkpoint at lines 104-108: after every Nth address or after the
last address, if a fetch occurred since the last write, persist the cache
and reset the dirty flag. -/
def checkpoint (total i : Nat) (s : LoopState) : LoopState :=
  if ((i + 1) % AUTSAVE_CACHE_EVERY_NTH_REQUEST = 0 ∨ i = total - 1) ∧ s.dirty = true then
    { s with file := some s.cache, writes := s.writes ++ [s.cache], dirty := false }
  else s

/-- One full iteration of the loop at index `i`. -/
def geocodeStep (provider : Nat → String → ProviderOutcome) (total i : Nat)
    (addr : String) (s : LoopState) : LoopState :=
  checkpoint total i (processAddr provider addr s)

/-- The loop `for i, addr in enumerate(addresses)` starting at index `i`. -/
def runFrom (provider : Nat → String → ProviderOutcome) (total : Nat) :
    Nat → List String → LoopState → LoopState
  | _, [], s => s
  | i, a :: rest, s => runFrom provider total (i + 1) rest (geocodeStep provider total i a s)

/-- The accepted input shapes of `geocode` (`type(addresses) in (list, tuple, set)`);
`other` stands for any value of a different type. -/
inductive AddrInput where
  | list (xs : List String)
  | tuple (xs : List String)
  | set (xs : List String)
  | other

/-- Observable result of one `geocode` call: the returned dict (or the
`ValueError`), the final in-memory cache (absent when the call failed before
loading), the durable file afterwards, the durable writes performed, the
number of `_load_cache` calls, the clock, and the provider-call trace. -/
structure GeocodeResult where
  ret : Except String (List (String × Option GRes))
  cacheFinal : Option Cache
  file : Option Cache
  writes : List Cache
  loads : Nat
  clock : Nat
  calls : List String
  deriving Repr

/-- The state at entry to the loop: cache freshly loaded, empty output dict,
dirty flag cleared, no writes or provider calls yet. -/
def startState (file : Option Cache) (clock : Nat) : LoopState :=
  { cache := load_cache file, out := [], dirty := false, file := file,
    writes := [], clock := clock, calls := [] }

/-- The body of `geocode` once the input shape check passed (lines 65-110). -/
def geocodeRun (provider : Nat → String → ProviderOutcome) (file : Option Cache)
    (clock : Nat) (addrs : List String) : GeocodeResult :=
  let s := runFrom provider addrs.length 0 addrs (startState file clock)
  { ret := Except.ok s.out, cacheFinal := some s.cache, file := s.file,
    writes := s.writes, loads := 1, clock := s.clock, calls := s.calls }

/-- `GMapsWrapper.geocode` (lines 57-110): reject non-list/tuple/set inputs
before any work, otherwise run the caching loop over the addresses. -/
def geocode (provider : Nat → String → ProviderOutcome) (file : Option Cache)
    (clock : Nat) : AddrInput → GeocodeResult
  | AddrInput.list xs => geocodeRun provider file clock xs
  | AddrInput.tuple xs => geocodeRun provider file clock xs
  | AddrInput.set xs => geocodeRun provider file clock xs
  | AddrInput.other =>
      { ret := Except.error "`addresses` must be a list, tuple or set",
        cacheFinal := none, file := file, writes := [], loads := 0,
        clock := clock, calls := [] }

/-- `remove_item_from_cache` for the `geocoding` section (lines 49-55): load
the cache, delete the entry if present, persist. Returns the written cache
and the trace of durable writes. -/
def remove_item_from_cache (file : Option Cache) (item_id : String) :
    Cache × List Cache :=
  let cache := load_cache file
  let cache2 :=
    if (alookup cache.geocoding item_id).isSome then
      { cache with geocoding := aerase cache.geocoding item_id }
    else cache
  (cache2, [cache2])

/-- Chaining `geocode` calls against the same durable file (the clock keeps
advancing across calls). -/
def runSeq (provider : Nat → String → ProviderOutcome) :
    List AddrInput → Option Cache × Nat → Option Cache × Nat
  | [], st => st
  | b :: bs, st =>
      let r := geocode provider st.1 st.2 b
      runSeq provider bs (r.file, r.clock)

/-! ### Association list lemmas -/

theorem alookup_ainsert {α : Type} (m : List (String × α)) (k : String) (v : α)
    (key : String) :
    alookup (ainsert m k v) key = if k = key then some v else alookup m key := by
  induction m with
  | nil => simp [ainsert, alookup]
  | cons p rest ih =>
      obtain ⟨k2, w⟩ := p
      by_cases h2 : k2 = k
      · subst h2
        by_cases h3 : k2 = key <;> simp [ainsert, alookup, h3]
      · by_cases h3 : k2 = key
        · subst h3
          simp [ainsert, alookup, h2, Ne.symm h2]
        · simp [ainsert, alookup, h2, h3, ih]

theorem alookup_ainsert_self {α : Type} (m : List (String × α)) (k : String) (v : α) :
    alookup (ainsert m k v) k = some v := by
  simp [alookup_ainsert]

theorem alookup_ainsert_ne {α : Type} (m : List (String × α)) (k : String) (v : α)
    (key : String) (h : k ≠ key) :
    alookup (ainsert m k v) key = alookup m key := by
  simp [alookup_ainsert, h]

theorem aerase_of_alookup_none {α : Type} (m : List (String × α)) (k : String)
    (h : alookup m k = none) : aerase m k = m := by
  induction m with
  | nil => simp [aerase]
  | cons p rest ih =>
      obtain ⟨k2, w⟩ := p
      by_cases h2 : k2 = k
      · subst h2; simp [alookup] at h
      · simp [alookup, h2] at h
        simp [aerase, h2, ih h]

theorem alookup_aerase_ne {α : Type} (m : List (String × α)) (k key : String)
    (h : key ≠ k) : alookup (aerase m k) key = alookup m key := by
  induction m with
  | nil => simp [aerase]
  | cons p rest ih =>
      obtain ⟨k2, w⟩ := p
      by_cases h2 : k2 = k
      · subst h2
        simp [aerase, alookup, Ne.symm h]
      · simp [aerase, alookup, h2, ih]

theorem alookup_none_of_not_mem_keys {α : Type} (m : List (String × α)) (k : String)
    (h : k ∉ m.map Prod.fst) : alookup m k = none := by
  induction m with
  | nil => simp [alookup]
  | cons p rest ih =>
      obtain ⟨k2, w⟩ := p
      simp only [List.map_cons, List.mem_cons, not_or] at h
      simp only [alookup]
      rw [if_neg (fun hh => h.1 hh.symm)]
      exact ih h.2

theorem alookup_aerase_self {α : Type} (m : List (String × α)) (k : String)
    (hnd : (m.map Prod.fst).Nodup) : alookup (aerase m k) k = none := by
  induction m with
  | nil => simp [aerase, alookup]
  | cons p rest ih =>
      obtain ⟨k2, w⟩ := p
      simp only [List.map_cons, List.nodup_cons] at hnd
      by_cases h2 : k2 = k
      · subst h2
        simp only [aerase, if_pos rfl]
        exact alookup_none_of_not_mem_keys rest k2 hnd.1
      · simp only [aerase, if_neg h2, alookup]
        exact ih hnd.2

/-! ### Step characterization lemmas -/

theorem processAddr_hit (provider : Nat → String → ProviderOutcome) (addr : String)
    (s : LoopState) (rs : GRes) (h : alookup s.cache.geocoding addr = some rs) :
    processAddr provider addr s = { s with out := ainsert s.out addr (some rs) } := by
  simp [processAddr, h]

theorem processAddr_miss_raises (provider : Nat → String → ProviderOutcome) (addr : String)
    (s : LoopState) (k : ExcKind) (h : alookup s.cache.geocoding addr = none)
    (hp : provider s.clock addr = ProviderOutcome.raises k) :
    processAddr provider addr s =
      { s with
        cache := { s.cache with requests := s.cache.requests ++ [s.clock] },
        clock := s.clock + 1, calls := s.calls ++ [addr], dirty := true,
        out := ainsert s.out addr none } := by
  simp [processAddr, h, hp]

theorem processAddr_miss_ok_empty (provider : Nat → String → ProviderOutcome) (addr : String)
    (s : LoopState) (h : alookup s.cache.geocoding addr = none)
    (hp : provider s.clock addr = ProviderOutcome.ok []) :
    processAddr provider addr s =
      { s with
        cache := { s.cache with requests := s.cache.requests ++ [s.clock] },
        clock := s.clock + 1, calls := s.calls ++ [addr], dirty := true,
        out := ainsert s.out addr (some []) } := by
  simp [processAddr, h, hp]

theorem processAddr_miss_ok_cons (provider : Nat → String → ProviderOutcome) (addr : String)
    (s : LoopState) (rs : GRes) (h : alookup s.cache.geocoding addr = none)
    (hp : provider s.clock addr = ProviderOutcome.ok rs) (hne : rs ≠ []) :
    processAddr provider addr s =
      { s with
        cache := { s.cache with
                    requests := s.cache.requests ++ [s.clock]
                    geocoding := ainsert s.cache.geocoding addr rs },
        clock := s.clock + 1, calls := s.calls ++ [addr], dirty := true,
        out := ainsert s.out addr (some rs) } := by
  simp [processAddr, h, hp, hne]

theorem checkpoint_pos (total i : Nat) (s : LoopState)
    (h : ((i + 1) % AUTSAVE_CACHE_EVERY_NTH_REQUEST = 0 ∨ i = total - 1) ∧ s.dirty = true) :
    checkpoint total i s =
      { s with file := some s.cache, writes := s.writes ++ [s.cache], dirty := false } := by
  simp [checkpoint, h]

theorem checkpoint_neg (total i : Nat) (s : LoopState)
    (h : ¬ (((i + 1) % AUTSAVE_CACHE_EVERY_NTH_REQUEST = 0 ∨ i = total - 1) ∧ s.dirty = true)) :
    checkpoint total i s = s := by
  simp only [checkpoint, if_neg h]

theorem checkpoint_cache (total i : Nat) (s : LoopState) :
    (checkpoint total i s).cache = s.cache := by
  unfold checkpoint; split <;> rfl

theorem checkpoint_out (total i : Nat) (s : LoopState) :
    (checkpoint total i s).out = s.out := by
  unfold checkpoint; split <;> rfl

theorem checkpoint_clock (total i : Nat) (s : LoopState) :
    (checkpoint total i s).clock = s.clock := by
  unfold checkpoint; split <;> rfl

theorem checkpoint_calls (total i : Nat) (s : LoopState) :
    (checkpoint total i s).calls = s.calls := by
  unfold checkpoint; split <;> rfl

theorem checkpoint_writes (total i : Nat) (s : LoopState) :
    (checkpoint total i s).writes = s.writes ∨
      (checkpoint total i s).writes = s.writes ++ [s.cache] := by
  unfold checkpoint; split
  · right; rfl
  · left; rfl

theorem checkpoint_file (total i : Nat) (s : LoopState) :
    (checkpoint total i s).file = s.file ∨
      (checkpoint total i s).file = some s.cache := by
  unfold checkpoint; split
  · right; rfl
  · left; rfl

theorem runFrom_nil (provider : Nat → String → ProviderOutcome) (total i : Nat)
    (s : LoopState) : runFrom provider total i [] s = s := rfl

theorem runFrom_cons (provider : Nat → String → ProviderOutcome) (total i : Nat)
    (a : String) (rest : List String) (s : LoopState) :
    runFrom provider total i (a :: rest) s =
      runFrom provider total (i + 1) rest (geocodeStep provider total i a s) := rfl

/-- Invariants preserved by each loop iteration are preserved by the loop. -/
theorem runFrom_preserve (provider : Nat → String → ProviderOutcome)
    (P : LoopState → Prop)
    (hstep : ∀ total i a s, P s → P (geocodeStep provider total i a s)) :
    ∀ (rest : List String) (total i : Nat) (s : LoopState),
      P s → P (runFrom provider total i rest s) := by
  intro rest
  induction rest with
  | nil => intro total i s h; exact h
  | cons a rest ih =>
      intro total i s h
      exact ih total (i + 1) _ (hstep total i a s h)

/-- Each iteration writes the output dict at exactly the key of the address
it processes. -/
theorem geocodeStep_out (provider : Nat → String → ProviderOutcome) (total i : Nat)
    (a : String) (s : LoopState) :
    ∃ v, (geocodeStep provider total i a s).out = ainsert s.out a v := by
  unfold geocodeStep
  rw [checkpoint_out]
  rcases hcl : alookup s.cache.geocoding a with _ | rs
  · rcases hp : provider s.clock a with rs | k
    · rcases hrs : rs with _ | ⟨x, tl⟩
      · exact ⟨some [], by rw [processAddr_miss_ok_empty provider a s hcl (hrs ▸ hp)]⟩
      · exact ⟨some rs, by rw [hrs, processAddr_miss_ok_cons provider a s (x :: tl) hcl (hrs ▸ hp) (by simp)]⟩
    · exact ⟨none, by rw [processAddr_miss_raises provider a s k hcl hp]⟩
  · exact ⟨some rs, by rw [processAddr_hit provider a s rs hcl]⟩

/-- Full case analysis of one loop body iteration: cache hit, miss with
exception, miss with empty result, miss with non-empty result. -/
theorem processAddr_cases (provider : Nat → String → ProviderOutcome) (a : String)
    (s : LoopState) :
    (∃ rs, alookup s.cache.geocoding a = some rs ∧
      processAddr provider a s = { s with out := ainsert s.out a (some rs) }) ∨
    (alookup s.cache.geocoding a = none ∧
      ((∃ k, provider s.clock a = ProviderOutcome.raises k ∧
        processAddr provider a s =
          { s with
            cache := { s.cache with requests := s.cache.requests ++ [s.clock] },
            clock := s.clock + 1, calls := s.calls ++ [a], dirty := true,
            out := ainsert s.out a none }) ∨
      (provider s.clock a = ProviderOutcome.ok [] ∧
        processAddr provider a s =
          { s with
            cache := { s.cache with requests := s.cache.requests ++ [s.clock] },
            clock := s.clock + 1, calls := s.calls ++ [a], dirty := true,
            out := ainsert s.out a (some []) }) ∨
      (∃ rs, provider s.clock a = ProviderOutcome.ok rs ∧ rs ≠ [] ∧
        processAddr provider a s =
          { s with
            cache := { s.cache with
                        requests := s.cache.requests ++ [s.clock]
                        geocoding := ainsert s.cache.geocoding a rs },
            clock := s.clock + 1, calls := s.calls ++ [a], dirty := true,
            out := ainsert s.out a (some rs) }))) := by
  rcases hcl : alookup s.cache.geocoding a with _ | rs
  · right
    refine ⟨rfl, ?_⟩
    rcases hp : provider s.clock a with rs | k
    · rcases rs with _ | ⟨x, tl⟩
      · exact Or.inr (Or.inl ⟨rfl, processAddr_miss_ok_empty provider a s hcl hp⟩)
      · exact Or.inr (Or.inr ⟨x :: tl, rfl, by simp,
          processAddr_miss_ok_cons provider a s (x :: tl) hcl hp (by simp)⟩)
    · exact Or.inl ⟨k, rfl, processAddr_miss_raises provider a s k hcl hp⟩
  · exact Or.inl ⟨rs, rfl, processAddr_hit provider a s rs hcl⟩

/-- Output-dict entries persist through the loop, and every remaining address
gets one. -/
theorem runFrom_out_isSome (provider : Nat → String → ProviderOutcome) :
    ∀ (rest : List String) (total i : Nat) (s : LoopState) (b : String),
      (b ∈ rest ∨ (alookup s.out b).isSome = true) →
      (alookup (runFrom provider total i rest s).out b).isSome = true := by
  intro rest
  induction rest with
  | nil =>
      intro total i s b h
      rcases h with h | h
      · cases h
      · exact h
  | cons a rest ih =>
      intro total i s b h
      rw [runFrom_cons]
      apply ih
      obtain ⟨v, hv⟩ := geocodeStep_out provider total i a s
      by_cases hba : a = b
      · right
        rw [hv, hba, alookup_ainsert_self]
        rfl
      · rcases h with h | h
        · rcases List.mem_cons.mp h with h | h
          · right
            rw [hv, h, alookup_ainsert_self]
            rfl
          · exact Or.inl h
        · right
          rw [hv, alookup_ainsert_ne _ _ _ _ hba]
          exact h

/-- Number of provider calls and request-log appends move in lockstep. -/
theorem processAddr_counts (provider : Nat → String → ProviderOutcome) (a : String)
    (s : LoopState) :
    ((processAddr provider a s).cache.requests.length = s.cache.requests.length ∧
      (processAddr provider a s).calls.length = s.calls.length ∧
      (processAddr provider a s).clock = s.clock) ∨
    ((processAddr provider a s).cache.requests.length = s.cache.requests.length + 1 ∧
      (processAddr provider a s).calls.length = s.calls.length + 1 ∧
      (processAddr provider a s).clock = s.clock + 1) := by
  rcases processAddr_cases provider a s with ⟨rs, _, heq⟩ |
    ⟨_, ⟨k, _, heq⟩ | ⟨_, heq⟩ | ⟨rs, _, _, heq⟩⟩ <;> rw [heq] <;> simp

/-- C6: for every address processed on the cache-miss path, exactly one
timestamp is appended to the request log per attempted provider call
(whatever its outcome), and cache hits append nothing: over a whole batch,
the request log grows by exactly the number of provider calls, and the clock
advances once per call. -/
theorem geocode_one_log_entry_per_call (provider : Nat → String → ProviderOutcome)
    (file : Option Cache) (clock : Nat) (addrs : List String) :
    ∃ c, (geocode provider file clock (AddrInput.list addrs)).cacheFinal = some c ∧
      c.requests.length = (load_cache file).requests.length +
        (geocode provider file clock (AddrInput.list addrs)).calls.length ∧
      (geocode provider file clock (AddrInput.list addrs)).clock =
        clock + (geocode provider file clock (AddrInput.list addrs)).calls.length := by
  have key := runFrom_preserve provider
    (fun s => s.cache.requests.length = (load_cache file).requests.length + s.calls.length ∧
      s.clock = clock + s.calls.length)
    (by
      intro total i a s hP
      obtain ⟨hP1, hP2⟩ := hP
      unfold geocodeStep
      rw [checkpoint_cache, checkpoint_calls, checkpoint_clock]
      rcases processAddr_counts provider a s with ⟨h1, h2, h3⟩ | ⟨h1, h2, h3⟩ <;>
        rw [h1, h2, h3] <;> exact ⟨by omega, by omega⟩)
    addrs addrs.length 0 (startState file clock)
    ⟨rfl, rfl⟩
  exact ⟨_, rfl, key.1, key.2⟩

/-- C7: for every accepted input shape, the returned mapping has an entry for
every input address (duplicates included); the empty collection yields an
empty mapping with no provider calls and no durable write. -/
theorem geocode_output_total (provider : Nat → String → ProviderOutcome)
    (file : Option Cache) (clock : Nat) (input : AddrInput) (xs : List String)
    (hshape : input = AddrInput.list xs ∨ input = AddrInput.tuple xs ∨
      input = AddrInput.set xs) :
    ∃ out, (geocode provider file clock input).ret = Except.ok out ∧
      (∀ a ∈ xs, (alookup out a).isSome = true) ∧
      (xs = [] → out = [] ∧ (geocode provider file clock input).calls = [] ∧
        (geocode provider file clock input).writes = []) := by
  have key : ∃ out, (geocodeRun provider file clock xs).ret = Except.ok out ∧
      (∀ a ∈ xs, (alookup out a).isSome = true) ∧
      (xs = [] → out = [] ∧ (geocodeRun provider file clock xs).calls = [] ∧
        (geocodeRun provider file clock xs).writes = []) := by
    refine ⟨(runFrom provider xs.length 0 xs (startState file clock)).out, rfl, ?_, ?_⟩
    · intro a ha
      exact runFrom_out_isSome provider xs xs.length 0 (startState file clock) a (Or.inl ha)
    · intro hxs
      subst hxs
      exact ⟨rfl, rfl, rfl⟩
  rcases hshape with h | h | h <;> subst h <;> exact key

/-- C8: an input that is not a list, tuple or set is rejected with the
`ValueError` before any work: no cache load, no cache mutation, no provider
call, no durable write, and the durable file is untouched. -/
theorem geocode_invalid_input (provider : Nat → String → ProviderOutcome)
    (file : Option Cache) (clock : Nat) :
    geocode provider file clock AddrInput.other =
      { ret := Except.error "`addresses` must be a list, tuple or set",
        cacheFinal := none, file := file, writes := [], loads := 0,
        clock := clock, calls := [] } := rfl

/-- When every remaining address is a fresh fetch, each iteration is a miss,
so a durable write happens exactly at each index `i` with `(i+1) % 10 = 0`
and after the final address; counting gives ceil(total/10) writes and the
dirty flag ends reset. -/
theorem runFrom_all_miss (provider : Nat → String → ProviderOutcome) :
    ∀ (rest : List String) (total i : Nat) (s : LoopState),
      rest ≠ [] → total = i + rest.length → rest.Nodup →
      (∀ b ∈ rest, alookup s.cache.geocoding b = none) →
      (runFrom provider total i rest s).writes.length + i / 10 =
          s.writes.length + (total + 9) / 10 ∧
        (runFrom provider total i rest s).dirty = false := by
  intro rest
  induction rest with
  | nil => intro total i s hne _ _ _; exact absurd rfl hne
  | cons a rest ih =>
      intro total i s _ htot hnd hmiss
      have hmiss_a : alookup s.cache.geocoding a = none := hmiss a (List.mem_cons_self a rest)
      have hnd2 := List.nodup_cons.mp hnd
      have hfacts : (processAddr provider a s).dirty = true ∧
          (processAddr provider a s).writes = s.writes ∧
          (∀ b ∈ rest, alookup (processAddr provider a s).cache.geocoding b = none) := by
        rcases processAddr_cases provider a s with ⟨rs, hsome, _⟩ | ⟨_, hsub⟩
        · rw [hmiss_a] at hsome; cases hsome
        · rcases hsub with ⟨k, _, heq⟩ | ⟨_, heq⟩ | ⟨rs, _, hne2, heq⟩ <;> rw [heq]
          · exact ⟨rfl, rfl, fun b hb => hmiss b (List.mem_cons_of_mem a hb)⟩
          · exact ⟨rfl, rfl, fun b hb => hmiss b (List.mem_cons_of_mem a hb)⟩
          · refine ⟨rfl, rfl, fun b hb => ?_⟩
            have hab : a ≠ b := fun h => hnd2.1 (h ▸ hb)
            exact (alookup_ainsert_ne s.cache.geocoding a rs b hab).trans
              (hmiss b (List.mem_cons_of_mem a hb))
      rcases rest with _ | ⟨c, rest2⟩
      · have htot2 : total = i + 1 := by simpa using htot
        have hlast : i = total - 1 := by omega
        rw [runFrom_cons, runFrom_nil]
        unfold geocodeStep
        rw [checkpoint_pos total i (processAddr provider a s) ⟨Or.inr hlast, hfacts.1⟩]
        refine ⟨?_, rfl⟩
        simp [hfacts.2.1]
        omega
      · have htot2 : total = i + rest2.length + 2 := by simp at htot; omega
        have hne3 : i ≠ total - 1 := by omega
        rw [runFrom_cons]
        unfold geocodeStep
        by_cases h10 : (i + 1) % AUTSAVE_CACHE_EVERY_NTH_REQUEST = 0
        · rw [checkpoint_pos total i (processAddr provider a s) ⟨Or.inl h10, hfacts.1⟩]
          have key := ih total (i + 1)
            { processAddr provider a s with
              file := some (processAddr provider a s).cache,
              writes := (processAddr provider a s).writes ++ [(processAddr provider a s).cache],
              dirty := false }
            (by simp) (by simp; omega) hnd2.2 (fun b hb => hfacts.2.2 b hb)
          refine ⟨?_, key.2⟩
          have hw : ((processAddr provider a s).writes ++ [(processAddr provider a s).cache]).length
              = s.writes.length + 1 := by simp [hfacts.2.1]
          have h10n : (i + 1) % 10 = 0 := h10
          simp only at key
          rw [hw] at key
          omega
        · rw [checkpoint_neg total i (processAddr provider a s)
            (fun hcond => hcond.1.elim h10 hne3)]
          have key := ih total (i + 1) (processAddr provider a s)
            (by simp) (by simp; omega) hnd2.2 hfacts.2.2
          refine ⟨?_, key.2⟩
          have h10n : ¬ (i + 1) % 10 = 0 := h10
          rw [hfacts.2.1] at key
          omega

/-- C1: for a batch of K pairwise-distinct addresses none of which is cached
(so every address requires a fresh fetch), `geocode` writes the durable
store exactly ceil(K / 10) times (N = `AUTSAVE_CACHE_EVERY_NTH_REQUEST` =
10): a write after each 10th processed address and a final write after the
last one, and the dirty flag is reset (false) when the loop finishes. -/
theorem geocode_checkpoint_count (provider : Nat → String → ProviderOutcome)
    (file : Option Cache) (clock : Nat) (addrs : List String)
    (hnd : addrs.Nodup)
    (hmiss : ∀ b ∈ addrs, alookup (load_cache file).geocoding b = none) :
    (geocode provider file clock (AddrInput.list addrs)).writes.length =
      (addrs.length + 9) / 10 ∧
    (runFrom provider addrs.length 0 addrs (startState file clock)).dirty = false := by
  rcases haddrs : addrs with _ | ⟨a, rest⟩
  · exact ⟨rfl, rfl⟩
  · subst haddrs
    have key := runFrom_all_miss provider (a :: rest) (a :: rest).length 0
      (startState file clock) (by simp) (by simp) hnd hmiss
    refine ⟨?_, key.2⟩
    have hz : (startState file clock).writes.length = 0 := rfl
    rw [hz] at key
    have hg : (geocode provider file clock (AddrInput.list (a :: rest))).writes =
        (runFrom provider (a :: rest).length 0 (a :: rest) (startState file clock)).writes := rfl
    rw [hg]
    omega

/-- Every entry of a results mapping comes from a successful non-empty
provider call. -/
def SoundMap (provider : Nat → String → ProviderOutcome)
    (m : List (String × GRes)) : Prop :=
  ∀ a rs, alookup m a = some rs →
    ∃ n, provider n a = ProviderOutcome.ok rs ∧ rs ≠ []

/-- One loop iteration preserves soundness of the in-memory cache and of the
durable file. -/
theorem geocodeStep_sound (provider : Nat → String → ProviderOutcome)
    (total i : Nat) (a : String) (s : LoopState)
    (h : SoundMap provider s.cache.geocoding ∧
      SoundMap provider (load_cache s.file).geocoding) :
    SoundMap provider (geocodeStep provider total i a s).cache.geocoding ∧
      SoundMap provider (load_cache (geocodeStep provider total i a s).file).geocoding := by
  have hp : SoundMap provider (processAddr provider a s).cache.geocoding ∧
      SoundMap provider (load_cache (processAddr provider a s).file).geocoding := by
    rcases processAddr_cases provider a s with ⟨rs, _, heq⟩ |
      ⟨_, ⟨k, _, heq⟩ | ⟨_, heq⟩ | ⟨rs, hpok, hne, heq⟩⟩ <;> rw [heq]
    · exact h
    · exact h
    · exact h
    · refine ⟨?_, h.2⟩
      intro b rs2 hl
      rw [alookup_ainsert] at hl
      by_cases hab : a = b
      · rw [if_pos hab] at hl
        cases hl
        exact ⟨s.clock, hab ▸ hpok, hne⟩
      · rw [if_neg hab] at hl
        exact h.1 b rs2 hl
  unfold geocodeStep checkpoint
  split
  · exact ⟨hp.1, hp.1⟩
  · exact hp

/-- Soundness of the durable file is preserved by a whole `geocode` call,
whatever the input shape. -/
theorem geocode_sound_file (provider : Nat → String → ProviderOutcome)
    (file : Option Cache) (clock : Nat) (input : AddrInput)
    (h : SoundMap provider (load_cache file).geocoding) :
    SoundMap provider
      (load_cache (geocode provider file clock input).file).geocoding := by
  have key : ∀ xs : List String, SoundMap provider
      (load_cache (geocodeRun provider file clock xs).file).geocoding := by
    intro xs
    exact (runFrom_preserve provider
      (fun s => SoundMap provider s.cache.geocoding ∧
        SoundMap provider (load_cache s.file).geocoding)
      (fun total i a s hs => geocodeStep_sound provider total i a s hs)
      xs xs.length 0 (startState file clock) ⟨h, h⟩).2
  cases input with
  | list xs => exact key xs
  | tuple xs => exact key xs
  | set xs => exact key xs
  | other => exact h

/-- C2: after any sequence of `geocode` calls starting from no durable cache,
an address maps to a stored result in the durable cache only if some
provider call for it succeeded with that non-empty result; failed or empty
lookups never insert an entry. -/
theorem geocode_cache_sound (provider : Nat → String → ProviderOutcome)
    (batches : List AddrInput) (a : String) (rs : GRes)
    (h : alookup (load_cache (runSeq provider batches (none, 0)).1).geocoding a
        = some rs) :
    ∃ n, provider n a = ProviderOutcome.ok rs ∧ rs ≠ [] := by
  have key : ∀ (bs : List AddrInput) (st : Option Cache × Nat),
      SoundMap provider (load_cache st.1).geocoding →
      SoundMap provider (load_cache (runSeq provider bs st).1).geocoding := by
    intro bs
    induction bs with
    | nil => intro st hst; exact hst
    | cons b bs ih =>
        intro st hst
        exact ih _ (geocode_sound_file provider st.1 st.2 b hst)
  have h0 : SoundMap provider (load_cache (none : Option Cache)).geocoding := by
    intro b rs2 hl
    cases hl
  exact key batches (none, 0) h0 a rs h

/-- A cached address stays cached with the same value, is never the subject
of a provider call, and its cached value is what the output dict records. -/
theorem runFrom_hit (provider : Nat → String → ProviderOutcome) (a : String) (rs : GRes) :
    ∀ (rest : List String) (total i : Nat) (s : LoopState),
      alookup s.cache.geocoding a = some rs →
      a ∉ s.calls →
      (a ∈ rest ∨ alookup s.out a = some (some rs)) →
      alookup (runFrom provider total i rest s).cache.geocoding a = some rs ∧
        a ∉ (runFrom provider total i rest s).calls ∧
        alookup (runFrom provider total i rest s).out a = some (some rs) := by
  intro rest
  induction rest with
  | nil =>
      intro total i s hc hcall hout
      rcases hout with hout | hout
      · cases hout
      · exact ⟨hc, hcall, hout⟩
  | cons b rest ih =>
      intro total i s hc hcall hout
      rw [runFrom_cons]
      by_cases hba : b = a
      · subst hba
        rw [geocodeStep]
        have heq := processAddr_hit provider b s rs hc
        apply ih
        · rw [checkpoint_cache, heq]
          exact hc
        · rw [checkpoint_calls, heq]
          exact hcall
        · right
          rw [checkpoint_out, heq]
          exact alookup_ainsert_self s.out b (some rs)
      · rw [geocodeStep]
        have hstep : alookup (processAddr provider b s).cache.geocoding a = some rs ∧
            a ∉ (processAddr provider b s).calls ∧
            alookup (processAddr provider b s).out a = alookup s.out a := by
          rcases processAddr_cases provider b s with ⟨rs2, _, heq⟩ |
            ⟨_, ⟨k, _, heq⟩ | ⟨_, heq⟩ | ⟨rs2, _, hne2, heq⟩⟩ <;> rw [heq]
          · exact ⟨hc, hcall, alookup_ainsert_ne s.out b (some rs2) a hba⟩
          · refine ⟨hc, ?_, alookup_ainsert_ne s.out b none a hba⟩
            simp only [List.mem_append, List.mem_singleton]
            rintro (h | h)
            · exact hcall h
            · exact hba h.symm
          · refine ⟨hc, ?_, alookup_ainsert_ne s.out b (some []) a hba⟩
            simp only [List.mem_append, List.mem_singleton]
            rintro (h | h)
            · exact hcall h
            · exact hba h.symm
          · refine ⟨?_, ?_, alookup_ainsert_ne s.out b (some rs2) a hba⟩
            · exact (alookup_ainsert_ne s.cache.geocoding b rs2 a hba).trans hc
            · simp only [List.mem_append, List.mem_singleton]
              rintro (h | h)
              · exact hcall h
              · exact hba h.symm
        apply ih
        · rw [checkpoint_cache]
          exact hstep.1
        · rw [checkpoint_calls]
          exact hstep.2.1
        · rw [checkpoint_out, hstep.2.2]
          rcases hout with hout | hout
          · rcases List.mem_cons.mp hout with h | h
            · exact absurd h.symm hba
            · exact Or.inl h
          · exact Or.inr hout

/-- C4: an address already present in the cache's results mapping is
resolved from the cache: its cached value appears in the output, and no
provider call is made for it (hence no request-log entry is attributable
to it). -/
theorem geocode_cache_hit (provider : Nat → String → ProviderOutcome)
    (file : Option Cache) (clock : Nat) (addrs : List String) (a : String) (rs : GRes)
    (ha : a ∈ addrs)
    (h0 : alookup (load_cache file).geocoding a = some rs) :
    ∃ out, (geocode provider file clock (AddrInput.list addrs)).ret = Except.ok out ∧
      alookup out a = some (some rs) ∧
      a ∉ (geocode provider file clock (AddrInput.list addrs)).calls := by
  have key := runFrom_hit provider a rs addrs addrs.length 0 (startState file clock)
    h0 (List.not_mem_nil a) (Or.inl ha)
  exact ⟨_, rfl, key.2.2, key.2.1⟩

/-- An address whose provider call always raises is never cached; its output
entry is the `None` marker. -/
theorem runFrom_uncachable_raises (provider : Nat → String → ProviderOutcome)
    (a : String) (hra : ∀ n, ∃ k, provider n a = ProviderOutcome.raises k) :
    ∀ (rest : List String) (total i : Nat) (s : LoopState),
      alookup s.cache.geocoding a = none →
      (a ∈ rest ∨ alookup s.out a = some none) →
      alookup (runFrom provider total i rest s).cache.geocoding a = none ∧
        alookup (runFrom provider total i rest s).out a = some none := by
  intro rest
  induction rest with
  | nil =>
      intro total i s hc hout
      rcases hout with hout | hout
      · cases hout
      · exact ⟨hc, hout⟩
  | cons b rest ih =>
      intro total i s hc hout
      rw [runFrom_cons]
      by_cases hba : b = a
      · subst hba
        obtain ⟨k, hk⟩ := hra s.clock
        have heq := processAddr_miss_raises provider b s k hc hk
        rw [geocodeStep]
        apply ih
        · rw [checkpoint_cache, heq]
          exact hc
        · right
          rw [checkpoint_out, heq]
          exact alookup_ainsert_self s.out b none
      · rw [geocodeStep]
        have hstep : alookup (processAddr provider b s).cache.geocoding a = none ∧
            alookup (processAddr provider b s).out a = alookup s.out a := by
          rcases processAddr_cases provider b s with ⟨rs2, _, heq⟩ |
            ⟨_, ⟨k, _, heq⟩ | ⟨_, heq⟩ | ⟨rs2, _, hne2, heq⟩⟩ <;> rw [heq]
          · exact ⟨hc, alookup_ainsert_ne s.out b (some rs2) a hba⟩
          · exact ⟨hc, alookup_ainsert_ne s.out b none a hba⟩
          · exact ⟨hc, alookup_ainsert_ne s.out b (some []) a hba⟩
          · exact ⟨(alookup_ainsert_ne s.cache.geocoding b rs2 a hba).trans hc,
              alookup_ainsert_ne s.out b (some rs2) a hba⟩
        apply ih
        · rw [checkpoint_cache]
          exact hstep.1
        · rw [checkpoint_out, hstep.2]
          rcases hout with hout | hout
          · rcases List.mem_cons.mp hout with h | h
            · exact absurd h.symm hba
            · exact Or.inl h
          · exact Or.inr hout

/-- An address whose provider call always succeeds with the empty list is
never cached; its output entry is the empty sequence. -/
theorem runFrom_uncachable_empty (provider : Nat → String → ProviderOutcome)
    (a : String) (hre : ∀ n, provider n a = ProviderOutcome.ok []) :
    ∀ (rest : List String) (total i : Nat) (s : LoopState),
      alookup s.cache.geocoding a = none →
      (a ∈ rest ∨ alookup s.out a = some (some [])) →
      alookup (runFrom provider total i rest s).cache.geocoding a = none ∧
        alookup (runFrom provider total i rest s).out a = some (some []) := by
  intro rest
  induction rest with
  | nil =>
      intro total i s hc hout
      rcases hout with hout | hout
      · cases hout
      · exact ⟨hc, hout⟩
  | cons b rest ih =>
      intro total i s hc hout
      rw [runFrom_cons]
      by_cases hba : b = a
      · subst hba
        have heq := processAddr_miss_ok_empty provider b s hc (hre s.clock)
        rw [geocodeStep]
        apply ih
        · rw [checkpoint_cache, heq]
          exact hc
        · right
          rw [checkpoint_out, heq]
          exact alookup_ainsert_self s.out b (some [])
      · rw [geocodeStep]
        have hstep : alookup (processAddr provider b s).cache.geocoding a = none ∧
            alookup (processAddr provider b s).out a = alookup s.out a := by
          rcases processAddr_cases provider b s with ⟨rs2, _, heq⟩ |
            ⟨_, ⟨k, _, heq⟩ | ⟨_, heq⟩ | ⟨rs2, _, hne2, heq⟩⟩ <;> rw [heq]
          · exact ⟨hc, alookup_ainsert_ne s.out b (some rs2) a hba⟩
          · exact ⟨hc, alookup_ainsert_ne s.out b none a hba⟩
          · exact ⟨hc, alookup_ainsert_ne s.out b (some []) a hba⟩
          · exact ⟨(alookup_ainsert_ne s.cache.geocoding b rs2 a hba).trans hc,
              alookup_ainsert_ne s.out b (some rs2) a hba⟩
        apply ih
        · rw [checkpoint_cache]
          exact hstep.1
        · rw [checkpoint_out, hstep.2]
          rcases hout with hout | hout
          · rcases List.mem_cons.mp hout with h | h
            · exact absurd h.symm hba
            · exact Or.inl h
          · exact Or.inr hout

/-- C3: an address whose provider call raises (any classified kind or any
other exception) gets the absent marker in the output, the exception is not
propagated (the call returns normally), and every other address of the batch
is still processed and reported. -/
theorem geocode_provider_failure (provider : Nat → String → ProviderOutcome)
    (file : Option Cache) (clock : Nat) (addrs : List String) (a : String)
    (ha : a ∈ addrs)
    (h0 : alookup (load_cache file).geocoding a = none)
    (hra : ∀ n, ∃ k, provider n a = ProviderOutcome.raises k) :
    ∃ out, (geocode provider file clock (AddrInput.list addrs)).ret = Except.ok out ∧
      alookup out a = some none ∧
      ∀ b ∈ addrs, (alookup out b).isSome = true := by
  have key := runFrom_uncachable_raises provider a hra addrs addrs.length 0
    (startState file clock) h0 (Or.inl ha)
  exact ⟨_, rfl, key.2,
    fun b hb => runFrom_out_isSome provider addrs addrs.length 0
      (startState file clock) b (Or.inl hb)⟩

/-- C10: within one batch, an address whose provider call raises is reported
with the `None` marker, while one whose call succeeds with an empty sequence
is reported with that empty sequence — two distinguishable values at the
public interface — and neither address is inserted into the cache. -/
theorem geocode_none_vs_empty (provider : Nat → String → ProviderOutcome)
    (file : Option Cache) (clock : Nat) (addrs : List String) (a b : String)
    (ha : a ∈ addrs) (hb : b ∈ addrs)
    (h0a : alookup (load_cache file).geocoding a = none)
    (h0b : alookup (load_cache file).geocoding b = none)
    (hra : ∀ n, ∃ k, provider n a = ProviderOutcome.raises k)
    (hrb : ∀ n, provider n b = ProviderOutcome.ok []) :
    ∃ out c, (geocode provider file clock (AddrInput.list addrs)).ret = Except.ok out ∧
      (geocode provider file clock (AddrInput.list addrs)).cacheFinal = some c ∧
      alookup out a = some none ∧
      alookup out b = some (some []) ∧
      alookup c.geocoding a = none ∧
      alookup c.geocoding b = none := by
  have keya := runFrom_uncachable_raises provider a hra addrs addrs.length 0
    (startState file clock) h0a (Or.inl ha)
  have keyb := runFrom_uncachable_empty provider b hrb addrs addrs.length 0
    (startState file clock) h0b (Or.inl hb)
  exact ⟨_, _, rfl, rfl, keya.2, keyb.2, keya.1, keyb.1⟩

/-- Counterexample to C5 as stated: in the batch `["a", "a"]` against an
empty cache, with the provider raising a timeout on every call, the first
resolution caches nothing, so the second occurrence is another miss and the
provider is called twice for the address — not once. -/
theorem geocode_duplicate_counterexample :
    (geocode (fun _ _ => ProviderOutcome.raises ExcKind.timeout) none 0
        (AddrInput.list ["a", "a"])).calls = ["a", "a"] := by
  decide

/-- If the provider always answers an address with a non-empty success, then
the first miss caches it and every later occurrence hits: the call count for
that address goes from zero to one and stays there. -/
theorem runFrom_single_call (provider : Nat → String → ProviderOutcome) (a : String)
    (hok : ∀ n, ∃ rs, provider n a = ProviderOutcome.ok rs ∧ rs ≠ []) :
    ∀ (rest : List String) (total i : Nat) (s : LoopState),
      ((alookup s.cache.geocoding a = none ∧ s.calls.count a = 0) ∨
        ((alookup s.cache.geocoding a).isSome = true ∧ s.calls.count a = 1)) →
      (a ∈ rest →
        ((alookup (runFrom provider total i rest s).cache.geocoding a).isSome = true ∧
          (runFrom provider total i rest s).calls.count a = 1)) ∧
      (((alookup s.cache.geocoding a).isSome = true →
        ((alookup (runFrom provider total i rest s).cache.geocoding a).isSome = true ∧
          (runFrom provider total i rest s).calls.count a = s.calls.count a))) := by
  intro rest
  induction rest with
  | nil =>
      intro total i s hinv
      refine ⟨fun h => absurd h (List.not_mem_nil a), fun h => ⟨h, rfl⟩⟩
  | cons b rest ih =>
      intro total i s hinv
      rw [runFrom_cons]
      by_cases hba : b = a
      · subst hba
        rcases hinv with ⟨hnone, hcnt⟩ | ⟨hsome, hcnt⟩
        · -- first occurrence: miss, successful non-empty fetch, cached
          obtain ⟨rs, hrs, hne⟩ := hok s.clock
          have heq := processAddr_miss_ok_cons provider b s rs hnone hrs hne
          have hsome2 : (alookup (geocodeStep provider total i b s).cache.geocoding b).isSome
              = true := by
            rw [geocodeStep, checkpoint_cache, heq]
            have := alookup_ainsert_self s.cache.geocoding b rs
            simp only [this]
            rfl
          have hcnt2 : (geocodeStep provider total i b s).calls.count b
              = 1 := by
            rw [geocodeStep, checkpoint_calls, heq]
            simp [List.count_append, hcnt]
          have key := ih total (i + 1) (geocodeStep provider total i b s)
            (Or.inr ⟨hsome2, hcnt2⟩)
          have key2 := key.2 hsome2
          rw [hcnt2] at key2
          refine ⟨fun _ => key2, fun hsome => ?_⟩
          rw [hnone] at hsome
          cases hsome
        · -- already cached: hit, no new call
          obtain ⟨rs, hrs⟩ := Option.isSome_iff_exists.mp hsome
          have heq := processAddr_hit provider b s rs hrs
          have hsome2 : (alookup (geocodeStep provider total i b s).cache.geocoding b).isSome
              = true := by
            rw [geocodeStep, checkpoint_cache, heq]
            exact hsome
          have hcnt2 : (geocodeStep provider total i b s).calls.count b = 1 := by
            rw [geocodeStep, checkpoint_calls, heq]
            exact hcnt
          have key := ih total (i + 1) (geocodeStep provider total i b s)
            (Or.inr ⟨hsome2, hcnt2⟩)
          have key2 := key.2 hsome2
          rw [hcnt2] at key2
          exact ⟨fun _ => key2, fun _ => ⟨key2.1, by rw [hcnt]; exact key2.2⟩⟩
      · -- different address: the status of `a` is untouched
        have hab : a ≠ b := fun h => hba h.symm
        have hstep : alookup (geocodeStep provider total i b s).cache.geocoding a
              = alookup s.cache.geocoding a ∧
            (geocodeStep provider total i b s).calls.count a = s.calls.count a := by
          rw [geocodeStep, checkpoint_cache, checkpoint_calls]
          rcases processAddr_cases provider b s with ⟨rs2, _, heq⟩ |
            ⟨_, ⟨k, _, heq⟩ | ⟨_, heq⟩ | ⟨rs2, _, hne2, heq⟩⟩ <;> rw [heq]
          · exact ⟨rfl, rfl⟩
          · exact ⟨rfl, by simp [List.count_append, List.count_cons, hab]⟩
          · exact ⟨rfl, by simp [List.count_append, List.count_cons, hab]⟩
          · exact ⟨alookup_ainsert_ne s.cache.geocoding b rs2 a hba,
              by simp [List.count_append, List.count_cons, hab]⟩
        have hinv2 : (alookup (geocodeStep provider total i b s).cache.geocoding a = none ∧
              (geocodeStep provider total i b s).calls.count a = 0) ∨
            ((alookup (geocodeStep provider total i b s).cache.geocoding a).isSome = true ∧
              (geocodeStep provider total i b s).calls.count a = 1) := by
          rw [hstep.1, hstep.2]
          exact hinv
        have key := ih total (i + 1) (geocodeStep provider total i b s) hinv2
        refine ⟨fun hmem => ?_, fun hsome => ?_⟩
        · rcases List.mem_cons.mp hmem with h | h
          · exact absurd h.symm hba
          · exact key.1 h
        · have key2 := key.2 (by rw [hstep.1]; exact hsome)
          rw [hstep.2] at key2
          exact key2

/-- C5 (amended): in any batch containing an address (possibly several
times), if the address is not initially cached and every provider call for
it succeeds with a non-empty result, exactly one provider lookup is issued
for it — the first occurrence populates the cache and later occurrences are
cache hits within the same call. -/
theorem geocode_duplicate_single_call (provider : Nat → String → ProviderOutcome)
    (file : Option Cache) (clock : Nat) (addrs : List String) (a : String)
    (ha : a ∈ addrs)
    (h0 : alookup (load_cache file).geocoding a = none)
    (hok : ∀ n, ∃ rs, provider n a = ProviderOutcome.ok rs ∧ rs ≠ []) :
    (geocode provider file clock (AddrInput.list addrs)).calls.count a = 1 := by
  have key := runFrom_single_call provider a hok addrs addrs.length 0
    (startState file clock) (Or.inl ⟨h0, rfl⟩)
  exact (key.1 ha).2

/-- C9: `remove_item_from_cache` on the `geocoding` section performs exactly
one durable write, whose content is the loaded cache with the given key
deleted from the results mapping (identical when the key is absent), all
other entries and fields preserved. -/
theorem remove_entry_spec (file : Option Cache) (item_id : String)
    (hnd : ((load_cache file).geocoding.map Prod.fst).Nodup) :
    (remove_item_from_cache file item_id).2 = [(remove_item_from_cache file item_id).1] ∧
    (remove_item_from_cache file item_id).1.version = (load_cache file).version ∧
    (remove_item_from_cache file item_id).1.requests = (load_cache file).requests ∧
    (remove_item_from_cache file item_id).1.geocoding =
      aerase (load_cache file).geocoding item_id ∧
    alookup (remove_item_from_cache file item_id).1.geocoding item_id = none ∧
    (∀ b, b ≠ item_id →
      alookup (remove_item_from_cache file item_id).1.geocoding b =
        alookup (load_cache file).geocoding b) ∧
    (alookup (load_cache file).geocoding item_id = none →
      (remove_item_from_cache file item_id).1 = load_cache file) := by
  by_cases h : (alookup (load_cache file).geocoding item_id).isSome = true
  · have hgeo : (remove_item_from_cache file item_id).1.geocoding =
        aerase (load_cache file).geocoding item_id := by
      simp only [remove_item_from_cache, if_pos h]
    refine ⟨?_, ?_, ?_, hgeo, ?_, ?_, ?_⟩
    · rfl
    · simp only [remove_item_from_cache, if_pos h]
    · simp only [remove_item_from_cache, if_pos h]
    · rw [hgeo]
      exact alookup_aerase_self (load_cache file).geocoding item_id hnd
    · intro b hb
      rw [hgeo]
      exact alookup_aerase_ne (load_cache file).geocoding item_id b hb
    · intro hnone
      rw [hnone] at h
      cases h
  · have hnone : alookup (load_cache file).geocoding item_id = none := by
      rcases hl : alookup (load_cache file).geocoding item_id with _ | v
      · rfl
      · rw [hl] at h
        exact absurd rfl h
    have hid : (remove_item_from_cache file item_id).1 = load_cache file := by
      simp only [remove_item_from_cache, if_neg h]
    refine ⟨rfl, by rw [hid], by rw [hid], ?_, ?_, ?_, fun _ => hid⟩
    · rw [hid, aerase_of_alookup_none (load_cache file).geocoding item_id hnone]
    · rw [hid]
      exact hnone
    · intro b _
      rw [hid]

/-- Witness for the checkpoint count: three fresh addresses yield one write. -/
theorem geocode_checkpoint_count_witness :
    (["a", "b", "c"] : List String).Nodup ∧
    (∀ b ∈ (["a", "b", "c"] : List String),
      alookup (load_cache none).geocoding b = none) ∧
    (geocode (fun _ _ => ProviderOutcome.ok [1]) none 0
        (AddrInput.list ["a", "b", "c"])).writes.length =
      ((["a", "b", "c"] : List String).length + 9) / 10 :=
  ⟨by decide, by decide,
    (geocode_checkpoint_count (fun _ _ => ProviderOutcome.ok [1]) none 0
      ["a", "b", "c"] (by decide) (by decide)).1⟩

/-- Witness for cache soundness: after one batch the stored entry for `x`
comes from a successful non-empty provider call. -/
theorem geocode_cache_sound_witness :
    alookup (load_cache (runSeq (fun _ _ => ProviderOutcome.ok [7])
        [AddrInput.list ["x"]] (none, 0)).1).geocoding "x" = some [7] ∧
    ∃ n, (fun (_ : Nat) (_ : String) => ProviderOutcome.ok [7]) n "x"
        = ProviderOutcome.ok [7] ∧ ([7] : GRes) ≠ [] :=
  ⟨by decide,
    geocode_cache_sound (fun _ _ => ProviderOutcome.ok [7])
      [AddrInput.list ["x"]] "x" [7] (by decide)⟩

/-- Witness for the provider-failure claim: `a` always raises, `b` succeeds;
the batch still reports both. -/
theorem geocode_provider_failure_witness :
    ("a" : String) ∈ (["a", "b"] : List String) ∧
    ∃ out, (geocode (fun _ s => if s = "a" then ProviderOutcome.raises ExcKind.httpError
          else ProviderOutcome.ok [3]) none 0 (AddrInput.list ["a", "b"])).ret
        = Except.ok out ∧
      alookup out "a" = some none ∧
      ∀ b ∈ (["a", "b"] : List String), (alookup out b).isSome = true :=
  ⟨by decide,
    geocode_provider_failure
      (fun _ s => if s = "a" then ProviderOutcome.raises ExcKind.httpError
        else ProviderOutcome.ok [3]) none 0 ["a", "b"] "a"
      (by decide) (by decide) (fun _ => ⟨ExcKind.httpError, rfl⟩)⟩

/-- Witness for the cache-hit claim: a pre-cached address is answered from
the cache with no provider call even though the provider always raises. -/
theorem geocode_cache_hit_witness :
    alookup (load_cache (some { version := 1, requests := [], geocoding := [("a", [9])] })).geocoding "a" = some [9] ∧
    ∃ out, (geocode (fun _ _ => ProviderOutcome.raises ExcKind.timeout)
        (some { version := 1, requests := [], geocoding := [("a", [9])] }) 0
        (AddrInput.list ["a"])).ret = Except.ok out ∧
      alookup out "a" = some (some [9]) ∧
      "a" ∉ (geocode (fun _ _ => ProviderOutcome.raises ExcKind.timeout)
        (some { version := 1, requests := [], geocoding := [("a", [9])] }) 0
        (AddrInput.list ["a"])).calls :=
  ⟨by decide,
    geocode_cache_hit (fun _ _ => ProviderOutcome.raises ExcKind.timeout)
      (some { version := 1, requests := [], geocoding := [("a", [9])] }) 0
      ["a"] "a" [9] (by decide) (by decide)⟩

/-- Witness for the amended duplicate claim: with a succeeding provider, the
batch `["a", "a"]` issues exactly one provider lookup for `a`. -/
theorem geocode_duplicate_single_call_witness :
    ("a" : String) ∈ (["a", "a"] : List String) ∧
    (geocode (fun _ _ => ProviderOutcome.ok [5]) none 0
        (AddrInput.list ["a", "a"])).calls.count "a" = 1 :=
  ⟨by decide,
    geocode_duplicate_single_call (fun _ _ => ProviderOutcome.ok [5]) none 0
      ["a", "a"] "a" (by decide) (by decide) (fun _ => ⟨[5], rfl, by decide⟩)⟩

/-- Witness for output totality: a tuple input is accepted and covered. -/
theorem geocode_output_total_witness :
    (AddrInput.tuple ["a"] = AddrInput.list ["a"] ∨
      AddrInput.tuple ["a"] = AddrInput.tuple ["a"] ∨
      AddrInput.tuple ["a"] = AddrInput.set ["a"]) ∧
    ∃ out, (geocode (fun _ _ => ProviderOutcome.ok []) none 0
        (AddrInput.tuple ["a"])).ret = Except.ok out ∧
      (∀ a ∈ (["a"] : List String), (alookup out a).isSome = true) ∧
      ((["a"] : List String) = [] → out = [] ∧
        (geocode (fun _ _ => ProviderOutcome.ok []) none 0
          (AddrInput.tuple ["a"])).calls = [] ∧
        (geocode (fun _ _ => ProviderOutcome.ok []) none 0
          (AddrInput.tuple ["a"])).writes = []) :=
  ⟨Or.inr (Or.inl rfl),
    geocode_output_total (fun _ _ => ProviderOutcome.ok []) none 0
      (AddrInput.tuple ["a"]) ["a"] (Or.inr (Or.inl rfl))⟩

/-- Witness for entry removal: removing `a` from a two-entry cache keeps `b`
and performs the single durable write. -/
theorem remove_entry_spec_witness :
    (((load_cache (some { version := 1, requests := [4], geocoding := [("a", [1]), ("b", [2])] })).geocoding.map Prod.fst).Nodup) ∧
    alookup (remove_item_from_cache (some { version := 1, requests := [4], geocoding := [("a", [1]), ("b", [2])] }) "a").1.geocoding "a" = none ∧
    (remove_item_from_cache (some { version := 1, requests := [4], geocoding := [("a", [1]), ("b", [2])] }) "a").2 =
      [(remove_item_from_cache (some { version := 1, requests := [4], geocoding := [("a", [1]), ("b", [2])] }) "a").1] :=
  ⟨by decide,
    (remove_entry_spec (some { version := 1, requests := [4], geocoding := [("a", [1]), ("b", [2])] }) "a" (by decide)).2.2.2.2.1,
    (remove_entry_spec (some { version := 1, requests := [4], geocoding := [("a", [1]), ("b", [2])] }) "a" (by decide)).1⟩

/-- Witness for the None-versus-empty distinction: `a` raises, `b` returns
the empty list; the output maps them to the two distinct markers. -/
theorem geocode_none_vs_empty_witness :
    ∃ out c, (geocode (fun _ s => if s = "a" then ProviderOutcome.raises ExcKind.otherExc
          else ProviderOutcome.ok []) none 0 (AddrInput.list ["a", "b"])).ret
        = Except.ok out ∧
      (geocode (fun _ s => if s = "a" then ProviderOutcome.raises ExcKind.otherExc
          else ProviderOutcome.ok []) none 0
        (AddrInput.list ["a", "b"])).cacheFinal = some c ∧
      alookup out "a" = some none ∧
      alookup out "b" = some (some []) ∧
      alookup c.geocoding "a" = none ∧
      alookup c.geocoding "b" = none :=
  geocode_none_vs_empty
    (fun _ s => if s = "a" then ProviderOutcome.raises ExcKind.otherExc
      else ProviderOutcome.ok []) none 0 ["a", "b"] "a" "b"
    (by decide) (by decide) (by decide) (by decide)
    (fun _ => ⟨ExcKind.otherExc, rfl⟩) (fun _ => rfl)
